import Mathlib

/-
Verification of the grpc-ws-bridge call multiplexer (src/src/grpc/factory.js,
src/utils/metadata.js) against its specification.  JavaScript values are
modelled by the inductive `JVal`; machine behaviour (table updates, emitted
frames, gRPC invocations) is modelled by pure functions translated from the
source.
-/

/-- Model of a JavaScript (JSON-compatible) value.  `undef` models the
distinguished value `undefined`, which is distinct from `null`. -/
inductive JVal where
  | null : JVal
  | undef : JVal
  | bool : Bool → JVal
  | num : Int → JVal
  | str : String → JVal
  | arr : List JVal → JVal
  | obj : List (String × JVal) → JVal

/-- JavaScript SameValueZero comparison, used by `Map` for key lookup.
Primitives compare by value.  Objects and arrays compare by reference; every
inbound frame is parsed freshly, so an object appearing in one frame is never
reference-equal to one stored from another frame, and the model renders
object/array comparison as `false`. -/
def sameValueZero : JVal → JVal → Bool
  | .null, .null => true
  | .undef, .undef => true
  | .bool a, .bool b => a == b
  | .num a, .num b => a == b
  | .str a, .str b => a == b
  | _, _ => false

/-- JavaScript truthiness: `false`, `0`, `""`, `null`, `undefined` are falsy;
objects and arrays are always truthy. -/
def jsTruthy : JVal → Bool
  | .null => false
  | .undef => false
  | .bool b => b
  | .num n => n != 0
  | .str s => s != ""
  | .arr _ => true
  | .obj _ => true

/-- JavaScript loose equality with null (`v == null`), true exactly for
`null` and `undefined`. -/
def jsIsNullish : JVal → Bool
  | .null => true
  | .undef => true
  | _ => false

mutual
/-- JavaScript `String(v)` conversion for the values the bridge handles.
An array stringifies as its elements joined with commas. -/
def jsString : JVal → String
  | .null => "null"
  | .undef => "undefined"
  | .bool true => "true"
  | .bool false => "false"
  | .num n => toString n
  | .str s => s
  | .obj _ => "[object Object]"
  | .arr xs => String.intercalate "," (jsStringElems xs)

/-- Stringification of array elements for `Array.prototype.join`, where
`null`/`undefined` elements render as the empty string. -/
def jsStringElems : List JVal → List String
  | [] => []
  | v :: vs => (if jsIsNullish v then "" else jsString v) :: jsStringElems vs
end

/-- Property access `v[k]` on a JavaScript value: key lookup on objects,
`undefined` (modelled as `none`) everywhere else.  Accessing a property of
`null`/`undefined` throws; callers handle that case before calling this. -/
def jsField : JVal → String → Option JVal
  | .obj fs, k => (fs.find? (fun e => e.1 = k)).map (fun e => e.2)
  | _, _ => none

/-- Alphabet of standard base64: sextet value to character, as used by Node
`Buffer.prototype.toString("base64")`. -/
def sixToChar (n : Nat) : Char :=
  if n < 26 then Char.ofNat (65 + n)
  else if n < 52 then Char.ofNat (97 + (n - 26))
  else if n < 62 then Char.ofNat (48 + (n - 52))
  else if n = 62 then Char.ofNat 43
  else Char.ofNat 47

/-- Inverse of the base64 alphabet, as used by Node `Buffer.from(s, "base64")`
on characters of the alphabet. -/
def charToSix (c : Char) : Nat :=
  let n := c.toNat
  if 65 ≤ n ∧ n ≤ 90 then n - 65
  else if 97 ≤ n ∧ n ≤ 122 then n - 97 + 26
  else if 48 ≤ n ∧ n ≤ 57 then n - 48 + 52
  else if n = 43 then 62
  else 63

/-- Standard base64 encoding of a byte list with `=` padding, modelling Node
`Buffer.prototype.toString("base64")`. -/
def encodeB64 : List Nat → List Char
  | [] => []
  | [a] => [sixToChar (a / 4), sixToChar (a % 4 * 16), Char.ofNat 61, Char.ofNat 61]
  | [a, b] => [sixToChar (a / 4), sixToChar (a % 4 * 16 + b / 16), sixToChar (b % 16 * 4), Char.ofNat 61]
  | a :: b :: c :: rest =>
    sixToChar (a / 4) :: sixToChar (a % 4 * 16 + b / 16) ::
    sixToChar (b % 16 * 4 + c / 64) :: sixToChar (c % 64) :: encodeB64 rest

/-- Base64 decoding of a character list, modelling Node
`Buffer.from(s, "base64")` on well-formed (encoder-produced) input:
each 4-character group yields 3 bytes, with `=` padding marking a final
group of 1 or 2 bytes. -/
def decodeB64 : List Char → List Nat
  | c1 :: c2 :: c3 :: c4 :: rest =>
    let w := charToSix c1
    let x := charToSix c2
    if c3 = Char.ofNat 61 then [w * 4 + x / 16]
    else
      let y := charToSix c3
      if c4 = Char.ofNat 61 then [w * 4 + x / 16, x % 16 * 16 + y / 4]
      else (w * 4 + x / 16) :: (x % 16 * 16 + y / 4) :: (y % 4 * 64 + charToSix c4) :: decodeB64 rest
  | _ => []

/-- Value stored in native gRPC metadata: a `Buffer` (for `-bin` keys) or a
string. -/
inductive MDValue where
  | bytes : List Nat → MDValue
  | str : String → MDValue
deriving DecidableEq

/-- Native gRPC metadata as held by `grpc-js` in `internalRepr`: an ordered
map from (lower-cased) key to the ordered list of values added under it. -/
abbrev NativeMD := List (String × List MDValue)

/-- Lower-casing of one ASCII character, as applied by `grpc-js` to metadata
keys (which are restricted to ASCII). -/
def charLowerAscii (c : Char) : Char :=
  if 65 ≤ c.toNat ∧ c.toNat ≤ 90 then Char.ofNat (c.toNat + 32) else c

/-- JavaScript `s.toLowerCase()` on the ASCII strings used as metadata keys. -/
def strToLower (s : String) : String :=
  String.mk (s.data.map charLowerAscii)

/-- JavaScript `s.endsWith(sfx)`. -/
def strEndsWith (s sfx : String) : Bool :=
  sfx.data.isSuffixOf s.data

/-- Model of `grpc.Metadata.prototype.add(key, value)`: the key is normalised
to lower case and the value appended to that key's list, keys kept in first
insertion order. -/
def mdAdd (md : NativeMD) (key : String) (v : MDValue) : NativeMD :=
  let k := strToLower key
  if md.any (fun e => e.1 = k) then
    md.map (fun e => if e.1 = k then (e.1, e.2 ++ [v]) else e)
  else md ++ [(k, [v])]

/-- Model of JavaScript `Object.entries(v)`: object fields in order; arrays
and strings yield index-keyed entries; other primitives yield no entries;
`null`/`undefined` throw a `TypeError` (modelled by `Except.error`). -/
def jsEntries : JVal → Except String (List (String × JVal))
  | .null => .error "TypeError: cannot convert null to object"
  | .undef => .error "TypeError: cannot convert undefined to object"
  | .obj fs => .ok fs
  | .arr xs => .ok (xs.enum.map (fun p => (toString p.1, p.2)))
  | .str s => .ok (s.data.enum.map (fun p => (toString p.1, JVal.str (String.mk [p.2]))))
  | _ => .ok []

/-- Model of Node `Buffer.from(v, "base64")`: decodes a base64 string to
bytes; a non-string argument throws a `TypeError`. -/
def bufferFromBase64 : JVal → Except String (List Nat)
  | .str s => .ok (decodeB64 s.data)
  | _ => .error "TypeError: first argument must be a string"

/-- Body of the inner loop of objectToMetadata: one value added under one
key, `-bin` keys decoding base64 to bytes and other keys stringifying. -/
def addMetadataValue (key : String) (md : NativeMD) (v : JVal) : Except String NativeMD :=
  if strEndsWith key "-bin" then
    match bufferFromBase64 v with
    | .error e => .error e
    | .ok buf => .ok (mdAdd md key (.bytes buf))
  else .ok (mdAdd md key (.str (jsString v)))

/-- Inner loop of objectToMetadata: add each value of one entry in order,
propagating a thrown `TypeError`. -/
def addMetadataValues (key : String) (md : NativeMD) : List JVal → Except String NativeMD
  | [] => .ok md
  | v :: vs =>
    match addMetadataValue key md v with
    | .error e => .error e
    | .ok md2 => addMetadataValues key md2 vs

/-- Outer loop of objectToMetadata over `Object.entries(obj)`: nullish values
are skipped, an array value contributes its elements, any other value is a
single value. -/
def addMetadataEntries (md : NativeMD) : List (String × JVal) → Except String NativeMD
  | [] => .ok md
  | kv :: rest =>
    if jsIsNullish kv.2 then addMetadataEntries md rest
    else
      let values := match kv.2 with
        | .arr xs => xs
        | v => [v]
      match addMetadataValues kv.1 md values with
      | .error e => .error e
      | .ok md2 => addMetadataEntries md2 rest

/-- objectToMetadata from src/utils/metadata.js: builds native gRPC metadata
from a JSON object.  Nullish values are skipped; an array value contributes
each element in order; values under a key ending in `-bin` are base64-decoded
to bytes, all others are stringified.  The `obj = {}` default parameter
applies when the argument is `undefined`. -/
def objectToMetadata (obj : JVal) : Except String NativeMD :=
  let o := match obj with
    | .undef => JVal.obj []
    | v => v
  match jsEntries o with
  | .error e => .error e
  | .ok entries => addMetadataEntries [] entries

/-- One entry of metadataToObject: `Buffer` values re-encoded as base64,
strings passed through; a single value becomes a scalar, several values a
list in order (grpc-js never stores an empty value list; JavaScript would
yield `undefined` there). -/
def mdEntryToObjectValue (vs : List MDValue) : JVal :=
  let vals := vs.map (fun v =>
    match v with
    | MDValue.bytes bs => String.mk (encodeB64 bs)
    | MDValue.str s => s)
  if vals.length > 1 then JVal.arr (vals.map JVal.str)
  else match vals with
    | [v] => JVal.str v
    | _ => JVal.undef

/-- Loop of metadataToObject over the entries of `internalRepr`, in order. -/
def metadataEntriesToObject : NativeMD → List (String × JVal)
  | [] => []
  | e :: rest => (e.1, mdEntryToObjectValue e.2) :: metadataEntriesToObject rest

/-- metadataToObject from src/utils/metadata.js: walks the native
`internalRepr` (a falsy or internal-representation-less argument yields `{}`),
re-encoding `Buffer` values as base64 strings and passing strings through;
a key with one value becomes a scalar, with several values a list in order. -/
def metadataToObject (md : Option NativeMD) : List (String × JVal) :=
  match md with
  | none => []
  | some internal => metadataEntriesToObject internal

/-- Status codes of the gRPC enumeration (`grpc.status`) used by the bridge. -/
def statusCodeOK : Nat := 0
def statusCodeCANCELLED : Nat := 1
def statusCodeUNKNOWN : Nat := 2
def statusCodeINVALID_ARGUMENT : Nat := 3
def statusCodeNOT_FOUND : Nat := 5
def statusCodeALREADY_EXISTS : Nat := 6
def statusCodeFAILED_PRECONDITION : Nat := 9
def statusCodeUNIMPLEMENTED : Nat := 12

/-- A JavaScript error-or-status object as the bridge receives them: a thrown
`Error` has only `message`; gRPC service errors and status objects carry
`code`, `details` and `metadata`/`trailers`.  A `none` field models an absent
property. -/
structure ErrLike where
  code : Option Nat := none
  details : Option String := none
  message : Option String := none
  md : Option NativeMD := none
  trailers : Option NativeMD := none

/-- A thrown plain `new Error(msg)`: only `message` is set. -/
def plainErr (msg : String) : ErrLike := { message := some msg }

/-- JavaScript `a || b` on an optional string where absence and the empty
string are falsy. -/
def jsOrStr (o : Option String) (dflt : String) : String :=
  match o with
  | some s => if s = "" then dflt else s
  | none => dflt

/-- Shape of the `status`/`error` payloads the bridge puts on outbound
frames. -/
structure StatusObj where
  code : Option Nat
  details : String
  trailersObj : List (String × JVal)

/-- statusObject from src/utils/metadata.js: `{code, details || message || "",
metadataToObject(metadata || trailers)}`. -/
def statusObject (e : ErrLike) : StatusObj :=
  { code := e.code
    details := jsOrStr e.details (jsOrStr e.message "")
    trailersObj := metadataToObject (match e.md with
      | some m => some m
      | none => e.trailers) }

/-- asErrorPayload from src/index.js: an object with a `code` or `details`
property is passed to `statusObject`; anything else (a plain thrown `Error`)
becomes `{code: UNKNOWN, details: String(err), metadata: {}}`, where
`String(err)` for an `Error` is `"Error: " ++ message`. -/
def asErrorPayload (e : ErrLike) : StatusObj :=
  if e.code.isSome || e.details.isSome then statusObject e
  else { code := some statusCodeUNKNOWN
         details := "Error: " ++ e.message.getD ""
         trailersObj := [] }
/-- The base64 alphabet map is inverted by `charToSix` on sextet values. -/
theorem charToSix_sixToChar_fin : ∀ n : Fin 64, charToSix (sixToChar n.1) = n.1 := by decide

/-- Alphabet inversion on naturals below 64. -/
theorem charToSix_sixToChar (n : Nat) (h : n < 64) : charToSix (sixToChar n) = n :=
  charToSix_sixToChar_fin ⟨n, h⟩

/-- No alphabet character is the padding character `=`. -/
theorem sixToChar_ne_pad_fin : ∀ n : Fin 64, sixToChar n.1 ≠ Char.ofNat 61 := by decide

/-- Padding-freeness on naturals below 64. -/
theorem sixToChar_ne_pad (n : Nat) (h : n < 64) : sixToChar n ≠ Char.ofNat 61 :=
  sixToChar_ne_pad_fin ⟨n, h⟩

/-- Base64 decoding inverts encoding on byte lists. -/
theorem decodeB64_encodeB64 : ∀ B : List Nat, (∀ b ∈ B, b < 256) → decodeB64 (encodeB64 B) = B
  | [], _ => rfl
  | [a], h => by
    have ha : a < 256 := h a (by simp)
    have h1 : a / 4 < 64 := by omega
    have h2 : a % 4 * 16 < 64 := by omega
    simp only [encodeB64, decodeB64, if_pos rfl, if_true,
      charToSix_sixToChar _ h1, charToSix_sixToChar _ h2, List.cons.injEq, and_true]
    omega
  | [a, b], h => by
    have ha : a < 256 := h a (by simp)
    have hb : b < 256 := h b (by simp)
    have h1 : a / 4 < 64 := by omega
    have h2 : a % 4 * 16 + b / 16 < 64 := by omega
    have h3 : b % 16 * 4 < 64 := by omega
    simp only [encodeB64, decodeB64, if_neg (sixToChar_ne_pad _ h3), if_pos rfl, if_true,
      charToSix_sixToChar _ h1, charToSix_sixToChar _ h2, charToSix_sixToChar _ h3,
      List.cons.injEq, and_true]
    omega
  | a :: b :: c :: rest, h => by
    have ha : a < 256 := h a (by simp)
    have hb : b < 256 := h b (by simp)
    have hc : c < 256 := h c (by simp)
    have ih := decodeB64_encodeB64 rest (fun x hx => h x (by simp [hx]))
    have h1 : a / 4 < 64 := by omega
    have h2 : a % 4 * 16 + b / 16 < 64 := by omega
    have h3 : b % 16 * 4 + c / 64 < 64 := by omega
    have h4 : c % 64 < 64 := by omega
    simp only [encodeB64, decodeB64, if_neg (sixToChar_ne_pad _ h3),
      if_neg (sixToChar_ne_pad _ h4),
      charToSix_sixToChar _ h1, charToSix_sixToChar _ h2, charToSix_sixToChar _ h3,
      charToSix_sixToChar _ h4, ih, List.cons.injEq]
    refine ⟨by omega, by omega, by omega, trivial⟩

/-- Mapping string-valued metadata entries back to strings is the identity. -/
theorem mdStr_map_inv (vs : List String) :
    (vs.map MDValue.str).map
      (fun v => match v with
        | MDValue.bytes bs => String.mk (encodeB64 bs)
        | MDValue.str s => s) = vs := by
  induction vs with
  | nil => rfl
  | cons v vs ih => simp [ih]

/-- C8: the metadata codec round-trips binary values.  For a (lower-case) key
ending in `-bin` and any byte sequence `B`, `objectToMetadata` on an object
mapping the key to `base64(B)` yields native metadata holding the bytes `B`
under that key, and `metadataToObject` on native metadata holding `B` under a
key yields `base64(B)`; a key with a single value is emitted as a scalar and
one with several values as a list preserving order. -/
theorem metadataCodec_bin_roundtrip (k : String) (B : List Nat)
    (hk : strEndsWith k "-bin" = true) (hlow : strToLower k = k)
    (hB : B.all (fun b => decide (b < 256)) = true) :
    objectToMetadata (JVal.obj [(k, JVal.str (String.mk (encodeB64 B)))])
        = Except.ok [(k, [MDValue.bytes B])]
    ∧ metadataToObject (some [(k, [MDValue.bytes B])])
        = [(k, JVal.str (String.mk (encodeB64 B)))]
    ∧ (∀ (key v : String), metadataToObject (some [(key, [MDValue.str v])])
        = [(key, JVal.str v)])
    ∧ (∀ (key : String) (vs : List String), 2 ≤ vs.length →
        metadataToObject (some [(key, vs.map MDValue.str)])
          = [(key, JVal.arr (vs.map JVal.str))]) := by
  have hB' : ∀ b ∈ B, b < 256 := by
    intro b hb
    simpa using List.all_eq_true.mp hB b hb
  have hdec := decodeB64_encodeB64 B hB'
  refine ⟨?_, ?_, ?_, ?_⟩
  · simp only [objectToMetadata, jsEntries, addMetadataEntries, addMetadataValues,
      addMetadataValue, jsIsNullish, bufferFromBase64, hk, if_true]
    simp only [String.mk, hdec]
    simp only [mdAdd, hlow]
    rfl
  · simp [metadataToObject, metadataEntriesToObject, mdEntryToObjectValue]
  · intro key v
    simp [metadataToObject, metadataEntriesToObject, mdEntryToObjectValue]
  · intro key vs hlen
    have hmap := mdStr_map_inv vs
    simp only [metadataToObject, metadataEntriesToObject, mdEntryToObjectValue, hmap,
      List.length_map]
    rw [if_pos (by omega)]

/-- Witness for C8 at key `x-bin` and bytes `[0, 255, 7, 9]`. -/
theorem metadataCodec_bin_roundtrip_witness :
    objectToMetadata (JVal.obj [("x-bin", JVal.str (String.mk (encodeB64 [0, 255, 7, 9])))])
        = Except.ok [("x-bin", [MDValue.bytes [0, 255, 7, 9]])]
    ∧ metadataToObject (some [("x-bin", [MDValue.bytes [0, 255, 7, 9]])])
        = [("x-bin", JVal.str (String.mk (encodeB64 [0, 255, 7, 9])))]
    ∧ metadataToObject (some [("k", [MDValue.str "a"])]) = [("k", JVal.str "a")]
    ∧ metadataToObject (some [("k", [MDValue.str "a", MDValue.str "b"])])
        = [("k", JVal.arr [JVal.str "a", JVal.str "b"])] := by
  obtain ⟨h1, h2, h3, h4⟩ :=
    metadataCodec_bin_roundtrip "x-bin" [0, 255, 7, 9] (by decide) (by decide) (by decide)
  refine ⟨h1, h2, h3 "k" "a", ?_⟩
  have h5 := h4 "k" ["a", "b"] (by decide)
  simpa using h5

/-- Shape flags of a loaded method definition, as exposed on
`Ctor.service[methodName]` by `@grpc/proto-loader` (`requestStream`,
`responseStream`; `path` omitted as unused by the bridge logic). -/
structure MethodDef where
  requestStream : Bool
  responseStream : Bool
deriving DecidableEq

/-- Accumulator-based splitting of a character list at a separator character,
the accumulator holding the current piece reversed. -/
def splitOnCharAux (c : Char) : List Char → List Char → List String
  | [], acc => [String.mk acc.reverse]
  | x :: xs, acc =>
    if x = c then String.mk acc.reverse :: splitOnCharAux c xs []
    else splitOnCharAux c xs (x :: acc)

/-- JavaScript `s.split(sep)` for a one-character separator:
`"a/b/c".split("/") = ["a","b","c"]`, and `"".split("/") = [""]`. -/
def jsSplit (s : String) (c : Char) : List String :=
  splitOnCharAux c s.data []

/-- JavaScript `parts.join(sep)` on an array of strings. -/
def jsJoin (sep : String) : List String → String
  | [] => ""
  | [x] => x
  | x :: xs => x ++ sep ++ jsJoin sep xs

/-- One entry of a loaded package namespace object: either a nested package
object or a service client constructor (whose `service` property maps method
names to definitions). -/
inductive NsEntry where
  | pkg : List (String × NsEntry) → NsEntry
  | svc : List (String × MethodDef) → NsEntry

/-- The root namespace produced by `grpc.loadPackageDefinition`. -/
abbrev NsRoot := List (String × NsEntry)

/-- Property lookup on a namespace object. -/
def nsLookup (entries : List (String × NsEntry)) (name : String) : Option NsEntry :=
  ((entries.find? (fun e => e.1 = name)).map (fun e => e.2))

/-- GrpcEnv.getPackage: resolve a namespace object by package path.  An empty
(falsy) path yields the root; otherwise the dot-separated parts are looked up
left to right, an absent part yielding `undefined`; property lookup on a
service constructor yields `undefined` for package-path parts. -/
def getPackage (root : NsRoot) (pkgPath : String) : Option NsEntry :=
  if pkgPath = "" then some (.pkg root)
  else
    (jsSplit pkgPath (Char.ofNat 46)).foldl
      (fun acc part =>
        match acc with
        | some (.pkg entries) => nsLookup entries part
        | _ => none)
      (some (.pkg root))

/-- GrpcEnv.getServiceCtor: resolve `pkg[serviceName]`, throwing
`Package not found` when the package path resolves to `undefined` and
`Service not found` when the member is absent or falsy. -/
def getServiceCtor (root : NsRoot) (pkgPath serviceName : String) : Except ErrLike NsEntry :=
  match getPackage root pkgPath with
  | none => .error (plainErr ("Package not found: " ++ pkgPath))
  | some pkgObj =>
    let ctor := match pkgObj with
      | .pkg entries => nsLookup entries serviceName
      | .svc _ => none
    match ctor with
    | none => .error (plainErr ("Service not found: " ++ pkgPath ++ "." ++ serviceName))
    | some c => .ok c

/-- GrpcEnv.getMethodDef: `Ctor.service[methodName]`, throwing
`Method not found` when `Ctor.service` or the method member is absent
(a namespace object has no `service` property in this model). -/
def getMethodDef (root : NsRoot) (pkgPath serviceName methodName : String) :
    Except ErrLike MethodDef :=
  match getServiceCtor root pkgPath serviceName with
  | .error e => .error e
  | .ok ctor =>
    let def? := match ctor with
      | .svc methods => (methods.find? (fun e => e.1 = methodName)).map (fun e => e.2)
      | .pkg _ => none
    match def? with
    | none => .error (plainErr
        ("Method not found: " ++ pkgPath ++ "." ++ serviceName ++ "/" ++ methodName))
    | some d => .ok d

/-- GrpcEnv.parseFQMethod: a falsy, non-string, or slash-free argument throws
`Invalid method: ...`; otherwise the string is split on every `/`, the first
segment (the service FQN) is split on `.` into package path and final service
name, and the second segment is the method name. -/
def parseFQMethod (fqMethod : JVal) : Except ErrLike (String × String × String) :=
  match fqMethod with
  | .str s =>
    if s = "" ∨ s.data.contains (Char.ofNat 47) = false then
      .error (plainErr ("Invalid method: " ++ s))
    else
      let segs := jsSplit s (Char.ofNat 47)
      let serviceFQN := segs.headD ""
      let methodName := (segs.drop 1).headD ""
      let parts := jsSplit serviceFQN (Char.ofNat 46)
      let serviceName := parts.getLastD ""
      let pkgPath := jsJoin "." parts.dropLast
      .ok (pkgPath, serviceName, methodName)
  | v => .error (plainErr ("Invalid method: " ++ jsString v))

/-- gRPC channel credentials: insecure, or TLS with an optional root-CA
bundle identified by its file path. -/
inductive Creds where
  | insecure : Creds
  | ssl : Option String → Creds
deriving DecidableEq

/-- GrpcEnv.makeCredentials: TLS credentials (with the CA file read from
`tlsCa` when given) when `secure` is set, else insecure credentials. -/
def makeCredentials (secure : Bool) (tlsCa : Option String) : Creds :=
  if secure then .ssl tlsCa else .insecure

/-- A gRPC client stub (`new Ctor(target, credentials)`).  `uid` models
JavaScript object identity of the constructed stub. -/
structure Client where
  target : JVal
  credentials : Creds
  servicePkgPath : String
  serviceName : String
  uid : Nat

/-- The `GrpcEnv.clientCache` map plus a counter supplying fresh stub
identities. -/
structure ClientCache where
  entries : List (String × Client)
  nextUid : Nat

/-- GrpcEnv.getClient: compute `"target|fqn"` (the FQN omitting the dot when
the package path is empty), return the cached stub on a hit, otherwise
construct a stub via the service constructor (whose resolution can throw) and
cache it. -/
def getClient (root : NsRoot) (cache : ClientCache) (target : JVal)
    (pkgPath serviceName : String) (credentials : Creds) :
    Except ErrLike (Client × ClientCache) :=
  let fqn := if pkgPath = "" then serviceName else pkgPath ++ "." ++ serviceName
  let key := jsString target ++ "|" ++ fqn
  match (cache.entries.find? (fun e => e.1 = key)).map (fun e => e.2) with
  | some c => .ok (c, cache)
  | none =>
    match getServiceCtor root pkgPath serviceName with
    | .error e => .error e
    | .ok _ =>
      let client : Client :=
        { target := target
          credentials := credentials
          servicePkgPath := pkgPath
          serviceName := serviceName
          uid := cache.nextUid }
      .ok (client, { entries := cache.entries ++ [(key, client)], nextUid := cache.nextUid + 1 })

/-- The loaded namespace of the demo proto shipped with the repository
(examples/protos/demo.proto): package `demo`, service `Greeter` with the four
call shapes. -/
def demoRoot : NsRoot :=
  [("demo", NsEntry.pkg
    [("Greeter", NsEntry.svc
      [("SayHello", { requestStream := false, responseStream := false }),
       ("GreetMany", { requestStream := false, responseStream := true }),
       ("AccumulateGreetings", { requestStream := true, responseStream := false }),
       ("Chat", { requestStream := true, responseStream := true })])])]

/-- C6 counterexample: a method string with two `/` characters is not
rejected by parseFQMethod; the segments after the second `/` are silently
dropped and the call succeeds. -/
theorem parseFQMethod_multislash_cex :
    parseFQMethod (JVal.str "demo.Svc/M/x") = Except.ok ("demo", "Svc", "M")
    ∧ "demo.Svc/M/x".data.count (Char.ofNat 47) = 2 :=
  ⟨rfl, by decide⟩

/-- C6 amended: parseFQMethod rejects only a falsy, non-string, or
slash-free argument (with a plain `Error`, carrying no status code).  Any
string containing at least one `/` is accepted: it is split on every `/`,
the first segment is split on `.` into the package path and the final
service name, the second segment is the method name, and any further
segments are ignored; for a string with exactly one `/` this is exactly the
split the specification describes. -/
theorem parseFQMethod_amended (s fqn mname : String) (rest parts : List String)
    (hs : s ≠ "") (hcontains : s.data.contains (Char.ofNat 47) = true)
    (hsplit : jsSplit s (Char.ofNat 47) = fqn :: mname :: rest)
    (hparts : jsSplit fqn (Char.ofNat 46) = parts) :
    parseFQMethod (JVal.str s)
        = Except.ok (jsJoin "." parts.dropLast, parts.getLastD "", mname)
    ∧ (∀ s2 : String, s2.data.contains (Char.ofNat 47) = false →
        parseFQMethod (JVal.str s2)
          = Except.error (plainErr ("Invalid method: " ++ s2))) := by
  constructor
  · simp only [parseFQMethod, hcontains]
    rw [if_neg (by simp [hs])]
    simp [hsplit, hparts]
  · intro s2 h2
    simp only [parseFQMethod]
    rw [if_pos (Or.inr h2)]

/-- Witness for the amended C6 at `demo.Greeter/SayHello` and at the
slash-free string `noslash`. -/
theorem parseFQMethod_amended_witness :
    parseFQMethod (JVal.str "demo.Greeter/SayHello")
        = Except.ok ("demo", "Greeter", "SayHello")
    ∧ parseFQMethod (JVal.str "noslash")
        = Except.error (plainErr ("Invalid method: " ++ "noslash")) := by
  obtain ⟨h1, h2⟩ := parseFQMethod_amended "demo.Greeter/SayHello" "demo.Greeter" "SayHello"
    [] ["demo", "Greeter"] (by decide) (by decide) (by rfl) (by rfl)
  exact ⟨h1, h2 "noslash" (by decide)⟩

/-- C10: getClient caches stubs keyed only by target and service FQN.  If a
first invocation returns stub `c` leaving the cache in state `cache2`, then a
second invocation with the same target, package path and service name — but
arbitrary, possibly different credentials — returns the identical stub `c`
and leaves the cache unchanged. -/
theorem getClient_cached_by_target_fqn (root : NsRoot) (cache : ClientCache)
    (target : JVal) (pkgPath serviceName : String) (creds1 creds2 : Creds)
    (c : Client) (cache2 : ClientCache)
    (h : getClient root cache target pkgPath serviceName creds1 = .ok (c, cache2)) :
    getClient root cache2 target pkgPath serviceName creds2 = .ok (c, cache2) := by
  unfold getClient at h ⊢
  rcases hfind : cache.entries.find? (fun e =>
      e.1 = jsString target ++ "|"
        ++ (if pkgPath = "" then serviceName else pkgPath ++ "." ++ serviceName))
    with _ | ⟨k0, c0⟩
  · simp only [hfind, Option.map_none'] at h
    rcases hctor : getServiceCtor root pkgPath serviceName with e | ctor
    · simp [hctor] at h
    · simp only [hctor] at h
      injection h with h2
      injection h2 with hc hcache
      subst hc
      subst hcache
      simp [List.find?_append, hfind]
  · simp only [hfind, Option.map_some'] at h
    injection h with h2
    injection h2 with hc hcache
    subst hc
    subst hcache
    simp [hfind]

/-- The stub constructed by the first getClient call of the C10 witness. -/
def demoClient0 : Client :=
  { target := JVal.str "localhost:50051"
    credentials := Creds.insecure
    servicePkgPath := "demo"
    serviceName := "Greeter"
    uid := 0 }

/-- The client cache after the first getClient call of the C10 witness. -/
def demoCache1 : ClientCache :=
  { entries := [("localhost:50051|demo.Greeter", demoClient0)], nextUid := 1 }

/-- Witness for C10: a second getClient call with different (TLS) credentials
still returns the stub built with insecure credentials. -/
theorem getClient_cached_by_target_fqn_witness :
    getClient demoRoot ⟨[], 0⟩ (JVal.str "localhost:50051") "demo" "Greeter" Creds.insecure
      = Except.ok (demoClient0, demoCache1)
    ∧ getClient demoRoot demoCache1 (JVal.str "localhost:50051") "demo" "Greeter"
        (Creds.ssl none)
      = Except.ok (demoClient0, demoCache1) := by
  have h1 : getClient demoRoot ⟨[], 0⟩ (JVal.str "localhost:50051") "demo" "Greeter"
      Creds.insecure = Except.ok (demoClient0, demoCache1) := rfl
  exact ⟨h1, getClient_cached_by_target_fqn demoRoot ⟨[], 0⟩ (JVal.str "localhost:50051")
    "demo" "Greeter" Creds.insecure (Creds.ssl none) demoClient0 demoCache1 h1⟩

/-- The four RPC call shapes. -/
inductive CallKind where
  | unary : CallKind
  | server : CallKind
  | client : CallKind
  | bidi : CallKind
deriving DecidableEq

/-- The `info` record stored with each call (`{ method, target: tgt }`). -/
structure CallInfo where
  method : JVal
  target : JVal

/-- A per-call record of the per-connection table (the gRPC call handle is
modelled behaviourally by `handleGrpcEvent`, keyed on `kind`). -/
structure CallEntry where
  kind : CallKind
  info : CallInfo

/-- The per-connection `state.calls` map from callId to call entry, keyed by
SameValueZero as a JavaScript `Map` is. -/
abbrev CallTable := List (JVal × CallEntry)

/-- `calls.has(k)`. -/
def tableHas (t : CallTable) (k : JVal) : Bool :=
  t.any (fun e => sameValueZero e.1 k)

/-- `calls.get(k)`. -/
def tableGet (t : CallTable) (k : JVal) : Option CallEntry :=
  (t.find? (fun e => sameValueZero e.1 k)).map (fun e => e.2)

/-- `calls.set(k, v)`: replace in place on an existing key, else append. -/
def tableSet (t : CallTable) (k : JVal) (v : CallEntry) : CallTable :=
  if t.any (fun e => sameValueZero e.1 k) then
    t.map (fun e => if sameValueZero e.1 k then (e.1, v) else e)
  else t ++ [(k, v)]

/-- `calls.delete(k)`. -/
def tableDelete (t : CallTable) (k : JVal) : CallTable :=
  t.filter (fun e => !(sameValueZero e.1 k))

/-- An outbound WebSocket frame as built by `send(ws, msg)`.  The callId slot
is `none` when the frame object carries no (or an `undefined`) callId. -/
inductive OutFrame where
  | headers : Option JVal → List (String × JVal) → OutFrame
  | data : Option JVal → JVal → OutFrame
  | status : Option JVal → StatusObj → OutFrame
  | error : Option JVal → StatusObj → OutFrame

/-- One gRPC method invocation performed by onStart, recording the stub, the
method, the call shape, the request passed for non-request-streaming shapes,
the metadata, and the first write performed when `start` carried a truthy
payload on a request-streaming shape. -/
structure Invocation where
  clientStub : Client
  methodName : String
  kind : CallKind
  request : Option JVal
  reqMetadata : NativeMD
  firstWrite : Option JVal

/-- Side effects of processing one inbound frame, besides frames and state:
gRPC invocations, `stream.write` calls, `stream.end` calls and
`call.cancel` calls, each tagged by callId where relevant. -/
structure Effects where
  invocations : List Invocation := []
  writes : List (JVal × JVal) := []
  ended : List JVal := []
  cancelled : List JVal := []

/-- Outcome of processing one inbound WebSocket message: frames sent plus the
updated connection state and effects, or an uncaught JavaScript exception
escaping the message handler. -/
inductive MsgOutcome where
  | res : List OutFrame → CallTable → ClientCache → Effects → MsgOutcome
  | crash : String → MsgOutcome

/-- The command-line configuration consumed by onStart (`argv.secure`,
`argv["tls-ca"]`, `argv["default-target"]`). -/
structure BridgeConfig where
  secure : Bool
  tlsCa : Option String
  defaultTarget : String

/-- JavaScript `v || d` on an optional value (absence is `undefined`, which
is falsy). -/
def jsOrVal (o : Option JVal) (d : JVal) : JVal :=
  match o with
  | some v => if jsTruthy v then v else d
  | none => d

/-- Truthiness of an optional (possibly absent) value. -/
def optTruthy (o : Option JVal) : Bool :=
  match o with
  | some v => jsTruthy v
  | none => false

/-- A possibly-absent field as a JavaScript value (`undefined` when absent). -/
def orUndef (o : Option JVal) : JVal :=
  match o with
  | some v => v
  | none => JVal.undef

/-- onStart from src/index.js.  Precondition checks in source order: missing
callId/method, duplicate callId, method parse, method resolution; then the
client is fetched (errors there, and in metadata conversion, escape the
handler), the call shape is chosen from the definition flags, the method is
invoked — with `payload || {}` for non-request-streaming shapes, and with a
first write of a truthy start payload for request-streaming shapes — and the
entry is inserted into the table.  No frame is emitted on the accepting
path. -/
def onStart (root : NsRoot) (cfg : BridgeConfig) (calls : CallTable) (cache : ClientCache)
    (msg : JVal) : MsgOutcome :=
  let callId := jsField msg "callId"
  let method := jsField msg "method"
  let target := jsField msg "target"
  let mdObj := jsField msg "metadata"
  let payload := jsField msg "payload"
  if !optTruthy callId || !optTruthy method then
    .res [.error callId
      { code := some statusCodeINVALID_ARGUMENT
        details := "Missing callId or method", trailersObj := [] }] calls cache {}
  else
    let cid := orUndef callId
    if tableHas calls cid then
      .res [.error callId
        { code := some statusCodeALREADY_EXISTS
          details := "Duplicate callId", trailersObj := [] }] calls cache {}
    else
      match parseFQMethod (orUndef method) with
      | .error e => .res [.error callId (asErrorPayload e)] calls cache {}
      | .ok (pkgPath, serviceName, methodName) =>
        let credentials := makeCredentials cfg.secure cfg.tlsCa
        let tgt := jsOrVal target (JVal.str cfg.defaultTarget)
        match getMethodDef root pkgPath serviceName methodName with
        | .error e => .res [.error callId (asErrorPayload e)] calls cache {}
        | .ok d =>
          match getClient root cache tgt pkgPath serviceName credentials with
          | .error e => .crash ("uncaught Error: " ++ e.message.getD "")
          | .ok (client, cache2) =>
            match objectToMetadata (orUndef mdObj) with
            | .error e => .crash ("uncaught " ++ e)
            | .ok md =>
              let info : CallInfo := { method := orUndef method, target := tgt }
              if !d.requestStream && !d.responseStream then
                let inv : Invocation :=
                  { clientStub := client, methodName := methodName, kind := .unary,
                    request := some (jsOrVal payload (JVal.obj [])),
                    reqMetadata := md, firstWrite := none }
                .res [] (tableSet calls cid { kind := .unary, info := info }) cache2
                  { invocations := [inv] }
              else if !d.requestStream && d.responseStream then
                let inv : Invocation :=
                  { clientStub := client, methodName := methodName, kind := .server,
                    request := some (jsOrVal payload (JVal.obj [])),
                    reqMetadata := md, firstWrite := none }
                .res [] (tableSet calls cid { kind := .server, info := info }) cache2
                  { invocations := [inv] }
              else if d.requestStream && !d.responseStream then
                let inv : Invocation :=
                  { clientStub := client, methodName := methodName, kind := .client,
                    request := none, reqMetadata := md,
                    firstWrite := if optTruthy payload then payload else none }
                .res [] (tableSet calls cid { kind := .client, info := info }) cache2
                  { invocations := [inv] }
              else
                let inv : Invocation :=
                  { clientStub := client, methodName := methodName, kind := .bidi,
                    request := none, reqMetadata := md,
                    firstWrite := if optTruthy payload then payload else none }
                .res [] (tableSet calls cid { kind := .bidi, info := info }) cache2
                  { invocations := [inv] }

/-- onWrite from src/index.js: unknown callId yields a NOT_FOUND error frame;
a non-writable shape yields FAILED_PRECONDITION; otherwise `payload || {}` is
written into the stream.  The table is never changed. -/
def onWrite (calls : CallTable) (msg : JVal) : List OutFrame × Effects :=
  let callId := jsField msg "callId"
  let payload := jsField msg "payload"
  match tableGet calls (orUndef callId) with
  | none => ([.error callId
      { code := some statusCodeNOT_FOUND, details := "callId not found"
        trailersObj := [] }], {})
  | some entry =>
    if entry.kind ≠ CallKind.client ∧ entry.kind ≠ CallKind.bidi then
      ([.error callId
        { code := some statusCodeFAILED_PRECONDITION, details := "Not a writable stream"
          trailersObj := [] }], {})
    else
      ([], { writes := [(orUndef callId, jsOrVal payload (JVal.obj []))] })

/-- onEnd from src/index.js: an unknown callId is silently ignored (no frame);
otherwise the request stream is half-closed when the handle has an `end`
method (the writable shapes `client` and `bidi`).  The table is never
changed. -/
def onEnd (calls : CallTable) (msg : JVal) : List OutFrame × Effects :=
  let callId := jsField msg "callId"
  match tableGet calls (orUndef callId) with
  | none => ([], {})
  | some entry =>
    if entry.kind = CallKind.client ∨ entry.kind = CallKind.bidi then
      ([], { ended := [orUndef callId] })
    else ([], {})

/-- onCancel from src/index.js: an unknown callId is silently ignored (no
frame, table unchanged); otherwise the underlying call is cancelled and the
entry removed. -/
def onCancel (calls : CallTable) (msg : JVal) : List OutFrame × CallTable × Effects :=
  let callId := jsField msg "callId"
  let cid := orUndef callId
  match tableGet calls cid with
  | none => ([], calls, {})
  | some _ => ([], tableDelete calls cid, { cancelled := [cid] })

/-- The `ws.on("message")` dispatcher after a successful `JSON.parse`: reading
`msg.type` throws on `null`/`undefined`; a recognised type string dispatches
to its handler; anything else (non-objects, objects without `type`, unknown
type strings) answers an UNIMPLEMENTED error frame quoting `String(msg.type)`
and addressed to `msg.callId` when present. -/
def handleParsed (root : NsRoot) (cfg : BridgeConfig) (calls : CallTable)
    (cache : ClientCache) (msg : JVal) : MsgOutcome :=
  match msg with
  | .null => .crash "TypeError: cannot read properties of null"
  | .undef => .crash "TypeError: cannot read properties of undefined"
  | _ =>
    match jsField msg "type" with
    | some (.str "start") => onStart root cfg calls cache msg
    | some (.str "write") =>
      match onWrite calls msg with
      | (fs, eff) => .res fs calls cache eff
    | some (.str "end") =>
      match onEnd calls msg with
      | (fs, eff) => .res fs calls cache eff
    | some (.str "cancel") =>
      match onCancel calls msg with
      | (fs, t2, eff) => .res fs t2 cache eff
    | other =>
      .res [.error (jsField msg "callId")
        { code := some statusCodeUNIMPLEMENTED
          details := "Unknown type " ++ (match other with
            | some v => jsString v
            | none => "undefined")
          trailersObj := [] }] calls cache {}

/-- The whole `ws.on("message")` handler: a failed `JSON.parse` answers an
INVALID_ARGUMENT error frame carrying no callId; otherwise the parsed value
is dispatched. -/
def handleRaw (root : NsRoot) (cfg : BridgeConfig) (calls : CallTable)
    (cache : ClientCache) (parsed : Option JVal) : MsgOutcome :=
  match parsed with
  | none => .res [.error none
      { code := some statusCodeINVALID_ARGUMENT, details := "Invalid JSON"
        trailersObj := [] }] calls cache {}
  | some msg => handleParsed root cfg calls cache msg

/-- Reduction of field extraction on a present field. -/
theorem orUndef_some (v : JVal) : orUndef (some v) = v := rfl

/-- Reduction of truthiness on a present field. -/
theorem optTruthy_some (v : JVal) : optTruthy (some v) = jsTruthy v := rfl

/-- The configuration used by the concrete witnesses: plaintext credentials
and the default target of the CLI. -/
def bridgeCfg : BridgeConfig :=
  { secure := false, tlsCa := none, defaultTarget := "localhost:50051" }

/-- An empty client cache. -/
def emptyCache : ClientCache := { entries := [], nextUid := 0 }

/-- C7: a `start` frame whose (truthy) callId is already present in the
per-connection table is answered with a single ALREADY_EXISTS error frame
addressed to that callId; the table, the client cache and the existing call
are untouched and no gRPC activity happens. -/
theorem onStart_duplicate (root : NsRoot) (cfg : BridgeConfig) (calls : CallTable)
    (cache : ClientCache) (msg cid m : JVal)
    (hcid : jsField msg "callId" = some cid) (hct : jsTruthy cid = true)
    (hm : jsField msg "method" = some m) (hmt : jsTruthy m = true)
    (hdup : tableHas calls cid = true) :
    onStart root cfg calls cache msg
      = .res [.error (some cid)
          { code := some statusCodeALREADY_EXISTS, details := "Duplicate callId",
            trailersObj := [] }] calls cache {} := by
  simp only [onStart, hcid, hm, optTruthy, hct, hmt, orUndef, hdup]
  simp

/-- A live call entry used by the C7 witness. -/
def dupEntry : CallEntry :=
  { kind := CallKind.unary
    info := { method := JVal.str "demo.Greeter/SayHello"
              target := JVal.str "localhost:50051" } }

/-- Witness for C7: a second `start` with live callId `dup`. -/
theorem onStart_duplicate_witness :
    onStart demoRoot bridgeCfg [(JVal.str "dup", dupEntry)] emptyCache
      (JVal.obj [("type", JVal.str "start"), ("callId", JVal.str "dup"),
        ("method", JVal.str "demo.Greeter/SayHello")])
      = MsgOutcome.res [OutFrame.error (some (JVal.str "dup"))
          { code := some statusCodeALREADY_EXISTS, details := "Duplicate callId",
            trailersObj := [] }] [(JVal.str "dup", dupEntry)] emptyCache {} :=
  onStart_duplicate demoRoot bridgeCfg [(JVal.str "dup", dupEntry)] emptyCache
    (JVal.obj [("type", JVal.str "start"), ("callId", JVal.str "dup"),
      ("method", JVal.str "demo.Greeter/SayHello")])
    (JVal.str "dup") (JVal.str "demo.Greeter/SayHello") rfl (by decide) rfl (by decide) rfl

/-- C4 counterexample: a `start` naming a service absent from the loaded
protos is answered with code UNKNOWN (2) — because the registry throws a
plain `Error` carrying no `code`, which asErrorPayload maps to UNKNOWN — and
not with NOT_FOUND (5) as claimed.  The details do name the missing element
and no entry is inserted. -/
theorem onStart_unknown_service_cex :
    onStart demoRoot bridgeCfg [] emptyCache
      (JVal.obj [("type", JVal.str "start"), ("callId", JVal.str "c1"),
        ("method", JVal.str "demo.Nope/Missing")])
      = MsgOutcome.res [OutFrame.error (some (JVal.str "c1"))
          { code := some statusCodeUNKNOWN,
            details := "Error: Service not found: demo.Nope", trailersObj := [] }]
        [] emptyCache {}
    ∧ statusCodeUNKNOWN ≠ statusCodeNOT_FOUND :=
  ⟨rfl, by decide⟩

/-- C4 amended: a `start` whose method resolution fails (missing package,
service, or method — the registry throwing a plain `Error` whose message
names the missing element) is answered with a single error frame whose code
is UNKNOWN (2) and whose details are `String(err)`, naming the missing
element; the callId is never inserted and no gRPC activity happens. -/
theorem onStart_resolution_error_unknown (root : NsRoot) (cfg : BridgeConfig)
    (calls : CallTable) (cache : ClientCache) (msg cid m : JVal)
    (p s mn d : String)
    (hcid : jsField msg "callId" = some cid) (hct : jsTruthy cid = true)
    (hm : jsField msg "method" = some m) (hmt : jsTruthy m = true)
    (hnodup : tableHas calls cid = false)
    (hparse : parseFQMethod m = .ok (p, s, mn))
    (hdef : getMethodDef root p s mn = .error (plainErr d)) :
    onStart root cfg calls cache msg
      = .res [.error (some cid)
          { code := some statusCodeUNKNOWN, details := "Error: " ++ d,
            trailersObj := [] }] calls cache {} := by
  simp only [onStart, hcid, hm, optTruthy, hct, hmt, orUndef, hnodup, hparse, hdef]
  simp [asErrorPayload, plainErr]

/-- Witness for the amended C4: `demo.Greeter/Nope` names a missing method. -/
theorem onStart_resolution_error_unknown_witness :
    onStart demoRoot bridgeCfg [] emptyCache
      (JVal.obj [("type", JVal.str "start"), ("callId", JVal.str "c2"),
        ("method", JVal.str "demo.Greeter/Nope")])
      = MsgOutcome.res [OutFrame.error (some (JVal.str "c2"))
          { code := some statusCodeUNKNOWN,
            details := "Error: " ++ "Method not found: demo.Greeter/Nope",
            trailersObj := [] }] [] emptyCache {} :=
  onStart_resolution_error_unknown demoRoot bridgeCfg [] emptyCache
    (JVal.obj [("type", JVal.str "start"), ("callId", JVal.str "c2"),
      ("method", JVal.str "demo.Greeter/Nope")])
    (JVal.str "c2") (JVal.str "demo.Greeter/Nope") "demo" "Greeter" "Nope"
    "Method not found: demo.Greeter/Nope" rfl (by decide) rfl (by decide) rfl rfl rfl

/-- C5 counterexample: a message that is valid JSON but not an object (here
the number 5) falls through to the unknown-type branch and is answered with
UNIMPLEMENTED (12), not INVALID_ARGUMENT (3) as claimed. -/
theorem handleParsed_nonobject_cex :
    handleParsed demoRoot bridgeCfg [] emptyCache (JVal.num 5)
      = MsgOutcome.res [OutFrame.error none
          { code := some statusCodeUNIMPLEMENTED, details := "Unknown type undefined",
            trailersObj := [] }] [] emptyCache {}
    ∧ statusCodeUNIMPLEMENTED ≠ statusCodeINVALID_ARGUMENT :=
  ⟨rfl, by decide⟩

/-- C5 amended: a decoded message that is not an object or has no `type`
field (and is not JSON `null`, on which reading `msg.type` throws) is
answered with an UNIMPLEMENTED (12) error frame with details
`Unknown type undefined`, carrying the message's callId when one is present
and none otherwise; the INVALID_ARGUMENT (3) frame without callId is emitted
exactly when the raw bytes fail to parse as JSON. -/
theorem handleParsed_no_type_unimplemented (root : NsRoot) (cfg : BridgeConfig)
    (calls : CallTable) (cache : ClientCache) (msg : JVal)
    (hnn : msg ≠ JVal.null) (hnu : msg ≠ JVal.undef)
    (htype : jsField msg "type" = none) :
    handleParsed root cfg calls cache msg
      = .res [.error (jsField msg "callId")
          { code := some statusCodeUNIMPLEMENTED, details := "Unknown type undefined",
            trailersObj := [] }] calls cache {}
    ∧ handleRaw root cfg calls cache none
      = .res [.error none
          { code := some statusCodeINVALID_ARGUMENT, details := "Invalid JSON",
            trailersObj := [] }] calls cache {} := by
  constructor
  · cases msg with
    | null => exact absurd rfl hnn
    | undef => exact absurd rfl hnu
    | bool b => simp [handleParsed, jsField]
    | num n => simp [handleParsed, jsField]
    | str s => simp [handleParsed, jsField]
    | arr xs => simp [handleParsed, jsField]
    | obj fs =>
      simp only [handleParsed, htype]
      rfl
  · rfl

/-- Witness for the amended C5: an object with a callId but no `type`. -/
theorem handleParsed_no_type_unimplemented_witness :
    handleParsed demoRoot bridgeCfg [] emptyCache (JVal.obj [("callId", JVal.str "c")])
      = MsgOutcome.res [OutFrame.error (some (JVal.str "c"))
          { code := some statusCodeUNIMPLEMENTED, details := "Unknown type undefined",
            trailersObj := [] }] [] emptyCache {}
    ∧ handleRaw demoRoot bridgeCfg [] emptyCache none
      = MsgOutcome.res [OutFrame.error none
          { code := some statusCodeINVALID_ARGUMENT, details := "Invalid JSON",
            trailersObj := [] }] [] emptyCache {} := by
  obtain ⟨h1, h2⟩ := handleParsed_no_type_unimplemented demoRoot bridgeCfg [] emptyCache
    (JVal.obj [("callId", JVal.str "c")])
    (fun h => JVal.noConfusion h) (fun h => JVal.noConfusion h) rfl
  exact ⟨h1, h2⟩

/-- C3 counterexample: `end` and `cancel` frames for a callId absent from the
table are silently ignored — no frame at all is emitted, in particular no
NOT_FOUND error frame as claimed (though the table is indeed unchanged). -/
theorem unknown_end_cancel_cex :
    handleParsed demoRoot bridgeCfg [] emptyCache
      (JVal.obj [("type", JVal.str "end"), ("callId", JVal.str "gone")])
      = MsgOutcome.res [] [] emptyCache {}
    ∧ handleParsed demoRoot bridgeCfg [] emptyCache
      (JVal.obj [("type", JVal.str "cancel"), ("callId", JVal.str "gone")])
      = MsgOutcome.res [] [] emptyCache {} :=
  ⟨rfl, rfl⟩

/-- C3 amended: an `end` or `cancel` frame whose callId is not in the table
is silently ignored — no frame is emitted, the table (and everything else)
is left unchanged; among the inbound frame kinds only an unknown `write` is
answered with a NOT_FOUND (5) error frame, likewise leaving the table
unchanged. -/
theorem unknown_end_cancel_ignored (calls : CallTable) (msg : JVal)
    (hlookup : tableGet calls (orUndef (jsField msg "callId")) = none) :
    onEnd calls msg = ([], {})
    ∧ onCancel calls msg = ([], calls, {})
    ∧ onWrite calls msg = ([.error (jsField msg "callId")
        { code := some statusCodeNOT_FOUND, details := "callId not found",
          trailersObj := [] }], {}) := by
  refine ⟨?_, ?_, ?_⟩
  · simp only [onEnd, hlookup]
  · simp only [onCancel, hlookup]
  · simp only [onWrite, hlookup]

/-- Witness for the amended C3: callId `gone` against a table holding only
`other`. -/
theorem unknown_end_cancel_ignored_witness :
    onEnd [(JVal.str "other", dupEntry)] (JVal.obj [("callId", JVal.str "gone")])
      = ([], {})
    ∧ onCancel [(JVal.str "other", dupEntry)] (JVal.obj [("callId", JVal.str "gone")])
      = ([], [(JVal.str "other", dupEntry)], {})
    ∧ onWrite [(JVal.str "other", dupEntry)] (JVal.obj [("callId", JVal.str "gone")])
      = ([OutFrame.error (some (JVal.str "gone"))
          { code := some statusCodeNOT_FOUND, details := "callId not found",
            trailersObj := [] }], {}) :=
  unknown_end_cancel_ignored [(JVal.str "other", dupEntry)]
    (JVal.obj [("callId", JVal.str "gone")]) rfl

/-- The table entry created by the C9 counterexample start. -/
def sayHelloEntry : CallEntry :=
  { kind := CallKind.unary
    info := { method := JVal.str "demo.Greeter/SayHello"
              target := JVal.str "localhost:50051" } }

/-- The invocation performed by the C9 counterexample start: the falsy
payload `0` has been replaced by the empty object. -/
def sayHelloInv : Invocation :=
  { clientStub := demoClient0
    methodName := "SayHello"
    kind := CallKind.unary
    request := some (JVal.obj [])
    reqMetadata := []
    firstWrite := none }

/-- C9 counterexample: a unary `start` with the falsy payload `0` invokes the
method with `{}` rather than forwarding `0` unchanged — the code computes
`payload || {}`, not `payload ?? {}`. -/
theorem onStart_falsy_payload_cex :
    onStart demoRoot bridgeCfg [] emptyCache
      (JVal.obj [("type", JVal.str "start"), ("callId", JVal.str "u1"),
        ("method", JVal.str "demo.Greeter/SayHello"), ("payload", JVal.num 0)])
      = MsgOutcome.res [] [(JVal.str "u1", sayHelloEntry)] demoCache1
          { invocations := [sayHelloInv] }
    ∧ sayHelloInv.request = some (JVal.obj [])
    ∧ JVal.obj [] ≠ JVal.num 0 :=
  ⟨rfl, rfl, fun h => JVal.noConfusion h⟩

/-- C9 amended: for every accepted `start` of a unary or server-streaming
call (request flag false), the method is invoked with the request
`payload || {}`: the empty object is substituted exactly when the payload
field is absent or falsy (JavaScript falsiness: `undefined`, `null`, `false`,
`0`, `""`), and a truthy payload is forwarded unchanged. -/
theorem onStart_payload_or_default (root : NsRoot) (cfg : BridgeConfig)
    (calls : CallTable) (cache : ClientCache) (msg cid m : JVal)
    (p s mn : String) (d : MethodDef) (client : Client) (cache2 : ClientCache)
    (md : NativeMD)
    (hcid : jsField msg "callId" = some cid) (hct : jsTruthy cid = true)
    (hm : jsField msg "method" = some m) (hmt : jsTruthy m = true)
    (hnodup : tableHas calls cid = false)
    (hparse : parseFQMethod m = .ok (p, s, mn))
    (hdef : getMethodDef root p s mn = .ok d)
    (hreq : d.requestStream = false)
    (hclient : getClient root cache (jsOrVal (jsField msg "target") (JVal.str cfg.defaultTarget))
        p s (makeCredentials cfg.secure cfg.tlsCa) = .ok (client, cache2))
    (hmd : objectToMetadata (orUndef (jsField msg "metadata")) = .ok md) :
    (∃ en : CallEntry, onStart root cfg calls cache msg
      = .res [] (tableSet calls cid en) cache2
          { invocations := [{ clientStub := client, methodName := mn, kind := en.kind,
                              request := some (jsOrVal (jsField msg "payload") (JVal.obj [])),
                              reqMetadata := md, firstWrite := none }] })
    ∧ (∀ pv : JVal, jsField msg "payload" = some pv → jsTruthy pv = true →
        jsOrVal (jsField msg "payload") (JVal.obj []) = pv)
    ∧ (jsField msg "payload" = none ∨ jsField msg "payload" = some JVal.null →
        jsOrVal (jsField msg "payload") (JVal.obj []) = JVal.obj []) := by
  refine ⟨?_, ?_, ?_⟩
  · cases hres : d.responseStream with
    | false =>
      refine ⟨⟨CallKind.unary, orUndef (jsField msg "method"),
        jsOrVal (jsField msg "target") (JVal.str cfg.defaultTarget)⟩, ?_⟩
      simp only [onStart, hcid, hm, optTruthy_some, hct, hmt, orUndef_some, hnodup, hparse,
        hdef, hclient, hmd, hreq, hres]
      simp
    | true =>
      refine ⟨⟨CallKind.server, orUndef (jsField msg "method"),
        jsOrVal (jsField msg "target") (JVal.str cfg.defaultTarget)⟩, ?_⟩
      simp only [onStart, hcid, hm, optTruthy_some, hct, hmt, orUndef_some, hnodup, hparse,
        hdef, hclient, hmd, hreq, hres]
      simp
  · intro pv hpv hpt
    simp [jsOrVal, hpv, hpt]
  · intro hcase
    rcases hcase with h | h <;> simp [jsOrVal, h, jsTruthy]

/-- The start message of the C9 witness, carrying a truthy object payload. -/
def aliceStartMsg : JVal :=
  JVal.obj [("type", JVal.str "start"), ("callId", JVal.str "u2"),
    ("method", JVal.str "demo.Greeter/SayHello"),
    ("payload", JVal.obj [("name", JVal.str "Alice")])]

/-- Witness for the amended C9: a truthy object payload is forwarded
unchanged to the invocation. -/
theorem onStart_payload_or_default_witness :
    (∃ en : CallEntry, onStart demoRoot bridgeCfg [] emptyCache aliceStartMsg
      = MsgOutcome.res [] (tableSet [] (JVal.str "u2") en) demoCache1
          { invocations := [{ clientStub := demoClient0, methodName := "SayHello",
                              kind := en.kind,
                              request := some (jsOrVal (jsField aliceStartMsg "payload")
                                (JVal.obj [])),
                              reqMetadata := [], firstWrite := none }] })
    ∧ jsOrVal (jsField aliceStartMsg "payload") (JVal.obj [])
        = JVal.obj [("name", JVal.str "Alice")] := by
  obtain ⟨h1, h2, h3⟩ := onStart_payload_or_default demoRoot bridgeCfg [] emptyCache
    aliceStartMsg (JVal.str "u2") (JVal.str "demo.Greeter/SayHello")
    "demo" "Greeter" "SayHello" { requestStream := false, responseStream := false }
    demoClient0 demoCache1 []
    rfl (by decide) rfl (by decide) rfl rfl rfl rfl rfl rfl
  exact ⟨h1, h2 (JVal.obj [("name", JVal.str "Alice")]) rfl rfl⟩

/-- A gRPC status object as delivered by a `status` event: code, details and
trailer metadata. -/
structure GStatus where
  code : Nat
  details : String
  smd : NativeMD

/-- Events the gRPC layer delivers to one live call: the stream events
`metadata`, `data`, `error`, `status`, `end`, and the completion callback of
callback-style invocations, firing with an error or a response. -/
inductive GEvent where
  | metadataEv : NativeMD → GEvent
  | dataEv : JVal → GEvent
  | errorEv : ErrLike → GEvent
  | statusEv : GStatus → GEvent
  | endEv : GEvent
  | cbErr : ErrLike → GEvent
  | cbOk : JVal → GEvent

/-- statusObject applied to the object of a `status` event. -/
def statusObjOfEvent (s : GStatus) : StatusObj :=
  statusObject { code := some s.code, details := some s.details, md := some s.smd }

/-- Frames emitted by the handlers src/index.js registers on one call, per
delivered event.  All four shapes register `metadata` (one headers frame) and
`status` (one status frame) handlers.  `server` and `bidi` streams register
`data` and `error` handlers; `unary` and `client` calls instead receive the
response or error through the completion callback.  Events without a
registered handler emit nothing (a Node `error` event with no listener would
crash the process; such deliveries are outside this model). -/
def frameOf (kind : CallKind) (cid : JVal) : GEvent → List OutFrame
  | .metadataEv h => [.headers (some cid) (metadataToObject (some h))]
  | .dataEv d =>
    match kind with
    | .server => [.data (some cid) d]
    | .bidi => [.data (some cid) d]
    | _ => []
  | .errorEv e =>
    match kind with
    | .server => [.error (some cid) (asErrorPayload e)]
    | .bidi => [.error (some cid) (asErrorPayload e)]
    | _ => []
  | .statusEv s => [.status (some cid) (statusObjOfEvent s)]
  | .endEv => []
  | .cbErr e =>
    match kind with
    | .unary => [.error (some cid) (asErrorPayload e)]
    | .client => [.error (some cid) (asErrorPayload e)]
    | _ => []
  | .cbOk r =>
    match kind with
    | .unary => [.data (some cid) r]
    | .client => [.data (some cid) r]
    | _ => []

/-- Whether an event is a `status` event. -/
def isStatusEv : GEvent → Bool
  | .statusEv _ => true
  | _ => false

/-- One delivered event: the registered handler emits its frames, and only
the `status` handler mutates the table (`s.calls.delete(callId)`); in
particular the `error` handlers and the error callbacks leave the entry in
the table. -/
def handleGrpcEvent (kind : CallKind) (cid : JVal) (calls : CallTable) (ev : GEvent) :
    List OutFrame × CallTable :=
  (frameOf kind cid ev, if isStatusEv ev then tableDelete calls cid else calls)

/-- A sequence of delivered events, threading the table and concatenating the
emitted frames in delivery order. -/
def processGrpcEvents (kind : CallKind) (cid : JVal) (calls : CallTable) :
    List GEvent → List OutFrame × CallTable
  | [] => ([], calls)
  | ev :: evs =>
    let r1 := handleGrpcEvent kind cid calls ev
    let r2 := processGrpcEvents kind cid r1.2 evs
    (r1.1 ++ r2.1, r2.2)

/-- The frames of an event sequence, independent of the table. -/
def framesOfEvents (kind : CallKind) (cid : JVal) : List GEvent → List OutFrame
  | [] => []
  | ev :: evs => frameOf kind cid ev ++ framesOfEvents kind cid evs

/-- Frame classifiers. -/
def isHeadersFrame : OutFrame → Bool
  | .headers _ _ => true
  | _ => false

def isDataFrame : OutFrame → Bool
  | .data _ _ => true
  | _ => false

def isStatusFrame : OutFrame → Bool
  | .status _ _ => true
  | _ => false

def isErrorFrame : OutFrame → Bool
  | .error _ _ => true
  | _ => false

/-- A terminal frame: `status` or `error`. -/
def isTerminalFrame (f : OutFrame) : Bool :=
  isStatusFrame f || isErrorFrame f

/-- A terminal event for a given call shape: a `status` event always; an
`error` event on the shapes with an error handler; an errored callback on the
callback shapes. -/
def isTerminalEvent (kind : CallKind) : GEvent → Bool
  | .statusEv _ => true
  | .errorEv _ =>
    match kind with
    | .server => true
    | .bidi => true
    | _ => false
  | .cbErr _ =>
    match kind with
    | .unary => true
    | .client => true
    | _ => false
  | _ => false

/-- Events whose handlers emit no terminal frame: `data`, `end` and a
successful callback. -/
def isDataLikeEvent : GEvent → Bool
  | .dataEv _ => true
  | .endEv => true
  | .cbOk _ => true
  | _ => false

/-- The frames of a processed sequence do not depend on the table. -/
theorem processGrpcEvents_frames (kind : CallKind) (cid : JVal) (calls : CallTable)
    (evs : List GEvent) :
    (processGrpcEvents kind cid calls evs).1 = framesOfEvents kind cid evs := by
  induction evs generalizing calls with
  | nil => rfl
  | cons ev evs ih => simp [processGrpcEvents, framesOfEvents, handleGrpcEvent, ih]

/-- Deleting a key twice is the same as deleting it once. -/
theorem tableDelete_idem (calls : CallTable) (cid : JVal) :
    tableDelete (tableDelete calls cid) cid = tableDelete calls cid := by
  simp [tableDelete, List.filter_filter]

/-- The table after a processed sequence: the entry is deleted exactly when
some `status` event was delivered, and nothing else changes. -/
theorem processGrpcEvents_table (kind : CallKind) (cid : JVal) (calls : CallTable)
    (evs : List GEvent) :
    (processGrpcEvents kind cid calls evs).2
      = if evs.any isStatusEv then tableDelete calls cid else calls := by
  induction evs generalizing calls with
  | nil => rfl
  | cons ev evs ih =>
    cases hev : isStatusEv ev with
    | false => simp [processGrpcEvents, handleGrpcEvent, hev, ih]
    | true =>
      simp only [processGrpcEvents, handleGrpcEvent, hev, if_true, List.any_cons,
        Bool.true_or, ih]
      cases hrest : evs.any isStatusEv <;> simp [tableDelete_idem]

/-- Each event's handler emits one terminal frame when the event is terminal
for the shape and none otherwise. -/
theorem frameOf_terminal_count (kind : CallKind) (cid : JVal) (ev : GEvent) :
    ((frameOf kind cid ev).filter isTerminalFrame).length
      = if isTerminalEvent kind ev then 1 else 0 := by
  cases ev <;> cases kind <;> rfl

/-- Each event's handler emits at most one frame. -/
theorem frameOf_length_le_one (kind : CallKind) (cid : JVal) (ev : GEvent) :
    (frameOf kind cid ev).length ≤ 1 := by
  cases ev <;> cases kind <;> simp [frameOf]

/-- Splitting the frames of an appended event sequence. -/
theorem framesOfEvents_append (kind : CallKind) (cid : JVal) (l1 l2 : List GEvent) :
    framesOfEvents kind cid (l1 ++ l2)
      = framesOfEvents kind cid l1 ++ framesOfEvents kind cid l2 := by
  induction l1 with
  | nil => rfl
  | cons ev evs ih => simp [framesOfEvents, ih]

/-- Every emitted frame comes from some event's handler. -/
theorem mem_framesOfEvents (kind : CallKind) (cid : JVal) (evs : List GEvent)
    (f : OutFrame) (hf : f ∈ framesOfEvents kind cid evs) :
    ∃ e ∈ evs, f ∈ frameOf kind cid e := by
  induction evs with
  | nil => simp [framesOfEvents] at hf
  | cons ev evs ih =>
    simp only [framesOfEvents, List.mem_append] at hf
    rcases hf with h | h
    · exact ⟨ev, by simp, h⟩
    · obtain ⟨e, he, hfe⟩ := ih h
      exact ⟨e, by simp [he], hfe⟩

/-- A data-like event's handler emits only data frames. -/
theorem frameOf_dataLike (kind : CallKind) (cid : JVal) (ev : GEvent)
    (hev : isDataLikeEvent ev = true) (f : OutFrame) (hf : f ∈ frameOf kind cid ev) :
    isDataFrame f = true := by
  cases ev <;> simp [isDataLikeEvent] at hev <;> cases kind <;>
    simp [frameOf] at hf <;> simp [hf, isDataFrame]

/-- A terminal event's handler emits only terminal frames. -/
theorem frameOf_terminalEvent (kind : CallKind) (cid : JVal) (ev : GEvent)
    (hev : isTerminalEvent kind ev = true) (f : OutFrame) (hf : f ∈ frameOf kind cid ev) :
    isTerminalFrame f = true := by
  cases ev <;> cases kind <;> simp [isTerminalEvent] at hev <;>
    simp [frameOf] at hf <;>
    simp [hf, isTerminalFrame, isStatusFrame, isErrorFrame]

/-- A live server-streaming call entry for the event counterexamples. -/
def serverEntry : CallEntry :=
  { kind := CallKind.server
    info := { method := JVal.str "demo.Greeter/GreetMany"
              target := JVal.str "localhost:50051" } }

/-- A live bidi call entry. -/
def bidiEntry : CallEntry :=
  { kind := CallKind.bidi
    info := { method := JVal.str "demo.Greeter/Chat"
              target := JVal.str "localhost:50051" } }

/-- A backend stream failure as surfaced by grpc-js: a service error object
carrying a gRPC status code, details and (empty) trailers. -/
def backendErr : ErrLike :=
  { code := some 13, details := some "backend boom", md := some [] }

/-- The status event grpc-js delivers for the same failed stream. -/
def backendStatus : GStatus := { code := 13, details := "backend boom", smd := [] }

/-- C1 counterexample: on a live server-streaming call, an `error` event
followed by the `status` event grpc-js delivers afterwards emits BOTH an
`error` frame and a `status` frame for the same callId; moreover the `error`
frame alone does not remove the entry from the table — only the `status`
handler deletes it. -/
theorem error_then_status_emits_both_cex :
    processGrpcEvents CallKind.server (JVal.str "s1") [(JVal.str "s1", serverEntry)]
      [GEvent.errorEv backendErr, GEvent.statusEv backendStatus]
      = ([OutFrame.error (some (JVal.str "s1")) (asErrorPayload backendErr),
          OutFrame.status (some (JVal.str "s1")) (statusObjOfEvent backendStatus)], [])
    ∧ ((processGrpcEvents CallKind.server (JVal.str "s1") [(JVal.str "s1", serverEntry)]
        [GEvent.errorEv backendErr, GEvent.statusEv backendStatus]).1.any isErrorFrame)
        = true
    ∧ ((processGrpcEvents CallKind.server (JVal.str "s1") [(JVal.str "s1", serverEntry)]
        [GEvent.errorEv backendErr, GEvent.statusEv backendStatus]).1.any isStatusFrame)
        = true
    ∧ processGrpcEvents CallKind.server (JVal.str "s1") [(JVal.str "s1", serverEntry)]
        [GEvent.errorEv backendErr]
      = ([OutFrame.error (some (JVal.str "s1")) (asErrorPayload backendErr)],
         [(JVal.str "s1", serverEntry)]) :=
  ⟨rfl, rfl, rfl, rfl⟩

/-- C1 amended: the bridge emits one terminal frame per terminal gRPC event
delivered to a live call (a `status` event, an `error` event on the stream
shapes, an errored callback on the callback shapes), so exactly one terminal
frame is emitted precisely when exactly one terminal event is delivered — an
error followed by a status yields two.  The CallEntry is removed exactly when
a `status` event is delivered; an `error` frame alone leaves the entry in the
table. -/
theorem terminal_frames_match_terminal_events (kind : CallKind) (cid : JVal)
    (calls : CallTable) (evs : List GEvent) :
    ((processGrpcEvents kind cid calls evs).1.filter isTerminalFrame).length
        = (evs.filter (isTerminalEvent kind)).length
    ∧ (processGrpcEvents kind cid calls evs).2
        = (if evs.any isStatusEv then tableDelete calls cid else calls) := by
  constructor
  · rw [processGrpcEvents_frames]
    induction evs with
    | nil => rfl
    | cons ev evs ih =>
      simp only [framesOfEvents, List.filter_append, List.length_append,
        frameOf_terminal_count, List.filter_cons]
      cases hter : isTerminalEvent kind ev <;> simp [hter, ih] <;> omega
  · exact processGrpcEvents_table kind cid calls evs

/-- C2 counterexample: on a live bidi call, the realistic delivery
`metadata, data, error, status` makes the bridge emit a `status` frame AFTER
the terminal `error` frame — two terminal frames in all — so a frame does
follow the terminal one. -/
theorem frame_after_terminal_cex :
    processGrpcEvents CallKind.bidi (JVal.str "b1") [(JVal.str "b1", bidiEntry)]
      [GEvent.metadataEv [], GEvent.dataEv (JVal.str "chunk"),
       GEvent.errorEv backendErr, GEvent.statusEv backendStatus]
      = ([OutFrame.headers (some (JVal.str "b1")) [],
          OutFrame.data (some (JVal.str "b1")) (JVal.str "chunk"),
          OutFrame.error (some (JVal.str "b1")) (asErrorPayload backendErr),
          OutFrame.status (some (JVal.str "b1")) (statusObjOfEvent backendStatus)], [])
    ∧ ((processGrpcEvents CallKind.bidi (JVal.str "b1") [(JVal.str "b1", bidiEntry)]
        [GEvent.metadataEv [], GEvent.dataEv (JVal.str "chunk"),
         GEvent.errorEv backendErr, GEvent.statusEv backendStatus]).1.filter
            isTerminalFrame).length = 2 :=
  ⟨rfl, rfl⟩

/-- C2 amended: the outbound frames mirror the delivery order of the gRPC
events.  When the events arrive as at most one `metadata` event first, then
data-like events, then the terminal events, the frames are: at most one
`headers` frame first, then only `data` frames, then only terminal frames —
and when at most one terminal event is delivered, at most one terminal frame
ends the sequence (so nothing follows it). -/
theorem frames_ordered_when_events_ordered (kind : CallKind) (cid : JVal)
    (calls : CallTable) (m ds ts : List GEvent)
    (hm : m = [] ∨ ∃ h, m = [GEvent.metadataEv h])
    (hds : ∀ e ∈ ds, isDataLikeEvent e = true)
    (hts : ∀ e ∈ ts, isTerminalEvent kind e = true) :
    ∃ hf df tf : List OutFrame,
      (processGrpcEvents kind cid calls (m ++ ds ++ ts)).1 = hf ++ df ++ tf
      ∧ hf.length ≤ 1 ∧ (∀ f ∈ hf, isHeadersFrame f = true)
      ∧ (∀ f ∈ df, isDataFrame f = true)
      ∧ (∀ f ∈ tf, isTerminalFrame f = true)
      ∧ (ts.length ≤ 1 → tf.length ≤ 1) := by
  refine ⟨framesOfEvents kind cid m, framesOfEvents kind cid ds,
    framesOfEvents kind cid ts, ?_, ?_, ?_, ?_, ?_, ?_⟩
  · rw [processGrpcEvents_frames, framesOfEvents_append, framesOfEvents_append]
  · rcases hm with h | ⟨hh, h⟩ <;> subst h <;> simp [framesOfEvents, frameOf]
  · rcases hm with h | ⟨hh, h⟩ <;> subst h <;> intro f hf <;>
      simp [framesOfEvents, frameOf] at hf <;> simp [hf, isHeadersFrame]
  · intro f hf
    obtain ⟨e, he, hfe⟩ := mem_framesOfEvents kind cid ds f hf
    exact frameOf_dataLike kind cid e (hds e he) f hfe
  · intro f hf
    obtain ⟨e, he, hfe⟩ := mem_framesOfEvents kind cid ts f hf
    exact frameOf_terminalEvent kind cid e (hts e he) f hfe
  · intro hlen
    cases ts with
    | nil => simp [framesOfEvents]
    | cons e rest =>
      cases rest with
      | nil =>
        simp only [framesOfEvents, List.append_nil]
        exact frameOf_length_le_one kind cid e
      | cons e2 r2 => simp at hlen

/-- Witness for the amended C2: a server stream delivering headers, two data
messages and an OK-style status. -/
theorem frames_ordered_when_events_ordered_witness :
    ∃ hf df tf : List OutFrame,
      (processGrpcEvents CallKind.server (JVal.str "w1") []
        ([GEvent.metadataEv []]
          ++ [GEvent.dataEv (JVal.num 1), GEvent.dataEv (JVal.num 2)]
          ++ [GEvent.statusEv backendStatus])).1 = hf ++ df ++ tf
      ∧ hf.length ≤ 1 ∧ (∀ f ∈ hf, isHeadersFrame f = true)
      ∧ (∀ f ∈ df, isDataFrame f = true)
      ∧ (∀ f ∈ tf, isTerminalFrame f = true)
      ∧ ([GEvent.statusEv backendStatus].length ≤ 1 → tf.length ≤ 1) :=
  frames_ordered_when_events_ordered CallKind.server (JVal.str "w1") []
    [GEvent.metadataEv []] [GEvent.dataEv (JVal.num 1), GEvent.dataEv (JVal.num 2)]
    [GEvent.statusEv backendStatus] (Or.inr ⟨[], rfl⟩)
    (by intro e he; simp at he; rcases he with h | h <;> subst h <;> rfl)
    (by intro e he; simp at he; subst he; rfl)
